import Mathlib

/-!
Verification development for the `jd_dashboard` repository.

The repository's core logic (per the specification) consists of
* the aggregation helpers `percentage`, `averageHours`, `aggregateMonthly`
  (src/src/src/components/ui/tabs.jsx, lines 188-195), and
* the tab-selection state container `Tabs` / `TabsTrigger` / `TabsContent`,
  present in two composition variants (shared context in
  src/src/components/ui/tabs.jsx, explicit prop threading in
  src/src/src/components/ui/tabs.jsx).

JavaScript numbers are modelled as rationals (`ℚ`); a JavaScript value that
is either a number or a string is modelled by the inductive type `JsVal`.
`Number.prototype.toFixed(1)` is modelled by `toFixed1`, following the
ECMAScript algorithm: the sign is split off, the absolute value is scaled by
10 and rounded to the nearest integer (ties upward, i.e. the larger
candidate), and the digits are rendered around a decimal point.
-/

/-- Model of a JavaScript value that is either a number or a string.
The helpers `percentage` and `averageHours` return the number `0` on their
guard branch and a `toFixed(1)` string otherwise. -/
inductive JsVal where
  | num : ℚ → JsVal
  | str : String → JsVal
deriving DecidableEq, Repr

/-- Scaled rounding used by `toFixed(1)`: the nearest integer to `|q| * 10`,
ties resolved upward (ECMAScript picks the larger candidate `n`). -/
def tenths (q : ℚ) : ℤ := round (|q| * 10)

/-- Signed count of tenths represented by the `toFixed(1)` rendering of `q`:
the numeric value of the string `toFixed1 q` is `signedTenths q / 10`. -/
def signedTenths (q : ℚ) : ℤ := if q < 0 then -(tenths q) else tenths q

/-- Digit rendering of `toFixed(1)`: an optional minus sign, the integer
part, a decimal point, and one fractional digit. -/
def renderTenths (neg : Bool) (n : ℤ) : String :=
  (if neg then "-" else "") ++ toString (n.toNat / 10) ++ "." ++ toString (n.toNat % 10)

/-- Model of `x.toFixed(1)` for a JavaScript number `x` (modelled in `ℚ`). -/
def toFixed1 (q : ℚ) : String := renderTenths (decide (q < 0)) (tenths q)

/-- Embedding of `percentage(part,total)` (tabs.jsx line 188):
`return total===0?0:((part/total)*100).toFixed(1)`. -/
def percentage (part total : ℚ) : JsVal :=
  if total = 0 then JsVal.num 0 else JsVal.str (toFixed1 ((part / total) * 100))

/-- Embedding of `averageHours(arr)` (tabs.jsx line 189):
`if(!arr.length) return 0; return (arr.reduce((a,b)=>a+b,0)/arr.length).toFixed(1)`. -/
def averageHours (arr : List ℚ) : JsVal :=
  if arr.length = 0 then JsVal.num 0
  else JsVal.str (toFixed1 (arr.foldl (· + ·) 0 / (arr.length : ℚ)))

theorem abs_sub_round_tenths (q : ℚ) : |q - (signedTenths q : ℚ) / 10| ≤ 1 / 20 := by
  have key : ∀ x : ℚ, |x - (round (x * 10) : ℚ) / 10| ≤ 1 / 20 := by
    intro x
    have h := abs_sub_round (x * 10)
    have h2 : |x - (round (x * 10) : ℚ) / 10| = |x * 10 - (round (x * 10) : ℚ)| / 10 := by
      rw [show x - (round (x * 10) : ℚ) / 10 = (x * 10 - (round (x * 10) : ℚ)) / 10 by ring,
        abs_div]
      norm_num
    rw [h2]
    linarith
  simp only [signedTenths, tenths]
  rcases lt_or_le q 0 with h | h
  · rw [if_pos h, abs_of_neg h]
    have hk := abs_le.mp (key (-q))
    rw [abs_le]
    push_cast
    constructor <;> linarith [hk.1, hk.2]
  · rw [if_neg (not_lt.mpr h), abs_of_nonneg h]
    exact key q

theorem tenths_eval (q : ℚ) (n : ℤ) (h0 : 0 ≤ q) (h : ⌊q * 10 + 1 / 2⌋ = n) :
    tenths q = n := by
  rw [tenths, abs_of_nonneg h0, round_eq, h]

theorem toFixed1_eval (q : ℚ) (n : ℤ) (h0 : ¬q < 0) (h : tenths q = n) :
    toFixed1 q = renderTenths false n := by
  rw [toFixed1, decide_eq_false h0, h]

example : percentage 0 0 = JsVal.num 0 := by decide
example : percentage 5 20 = JsVal.str "25.0" := by
  simp only [percentage]
  rw [if_neg (by norm_num : ¬(20 : ℚ) = 0), show ((5 : ℚ) / 20 * 100) = 25 by norm_num,
    toFixed1_eval 25 250 (by norm_num) (tenths_eval 25 250 (by norm_num) (by norm_num))]
  decide
example : percentage 1 3 = JsVal.str "33.3" := by
  simp only [percentage]
  rw [if_neg (by norm_num : ¬(3 : ℚ) = 0), show ((1 : ℚ) / 3 * 100) = 100 / 3 by norm_num,
    toFixed1_eval (100 / 3) 333 (by norm_num)
      (tenths_eval (100 / 3) 333 (by norm_num) (by norm_num))]
  decide
example : averageHours [] = JsVal.num 0 := by decide
example : averageHours [2, 4, 6] = JsVal.str "4.0" := by
  simp only [averageHours]
  norm_num
  rw [toFixed1_eval 4 40 (by norm_num) (tenths_eval 4 40 (by norm_num) (by norm_num))]
  decide

/-!
Monthly aggregation (`aggregateMonthly`, tabs.jsx lines 190-195).

The JavaScript derives a bucket key by
`new Date(o.date).toLocaleString('default',{month:'short'})`.  Per the
specification (sections 4.2 and 9) this locale-dependent derivation is fixed
to the canonical English short-month table `monthNamesShort`; a date string
that does not parse yields an invalid `Date`, whose `toLocaleString` output
is the fixed fallback label `"Invalid Date"`.  Dates are parsed in the
`YYYY-MM-DD` shape used throughout the repository's data.
-/

/-- Fixed canonical short month names (spec section 4.2). -/
def monthNamesShort : List String :=
  ["Jan", "Feb", "Mar", "Apr", "May", "Jun", "Jul", "Aug", "Sep", "Oct", "Nov", "Dec"]

/-- Split a character list on the dash separator (structural model of
splitting the date string on `-`). -/
def splitDashes : List Char → List (List Char)
  | [] => [[]]
  | c :: cs =>
    match splitDashes cs with
    | [] => if c = '-' then [[], []] else [[c]]
    | p :: ps => if c = '-' then [] :: p :: ps else (c :: p) :: ps

/-- Numeric value of a list of decimal digit characters. -/
def digitsVal (cs : List Char) : Nat :=
  cs.foldl (fun n c => 10 * n + (c.toNat - 48)) 0

/-- Parse a date string of shape `YYYY-MM-DD` into `(year, month, day)`;
any other shape is an invalid date. -/
def parseYMD (s : String) : Option (Nat × Nat × Nat) :=
  match splitDashes s.toList with
  | [y, m, d] =>
    if y.length = 4 ∧ y.all Char.isDigit ∧ m.length = 2 ∧ m.all Char.isDigit ∧
        d.length = 2 ∧ d.all Char.isDigit ∧ 1 ≤ digitsVal m ∧ digitsVal m ≤ 12 ∧
        1 ≤ digitsVal d ∧ digitsVal d ≤ 31 then
      some (digitsVal y, digitsVal m, digitsVal d)
    else none
  | _ => none

/-- Model of `new Date(date).toLocaleString('default',{month:'short'})`:
the canonical short month name for a parsable date, and the deterministic
fallback label `"Invalid Date"` for an unparsable one. -/
def monthLabel (date : String) : String :=
  match parseYMD date with
  | some (_, mn, _) => monthNamesShort.getD (mn - 1) "Invalid Date"
  | none => "Invalid Date"

/-- Input record for `aggregateMonthly`: only the `date` and `rate` fields
are read by the aggregation; a record without a `rate` (e.g. an order)
behaves exactly like `rate = 0`, since JavaScript treats both as falsy in
`if(o.rate)`. -/
structure Record where
  date : String
  rate : ℚ
deriving DecidableEq

/-- Output bucket of `aggregateMonthly`: the object `{month, count, rate}`. -/
structure MonthlyBucket where
  month : String
  count : Nat
  rate : ℚ
deriving DecidableEq

/-- Per-record update of one bucket: `map[month].count+=1; if(o.rate)
map[month].rate=o.rate` applied to the bucket whose key matches. -/
def touchBucket (o : Record) (b : MonthlyBucket) : MonthlyBucket :=
  if b.month = monthLabel o.date then
    ⟨b.month, b.count + 1, if o.rate = 0 then b.rate else o.rate⟩
  else b

/-- One iteration of the `arr.forEach(o=>{...})` loop body: create the
bucket if the key is absent (`if(!map[month]) map[month]={month,count:0,rate:0}`),
then update it.  The bucket list models the string-keyed object `map` in
insertion order, which is the enumeration order of `Object.values`. -/
def aggStep (bs : List MonthlyBucket) (o : Record) : List MonthlyBucket :=
  (if bs.any (fun b => b.month == monthLabel o.date) then bs
   else bs ++ [⟨monthLabel o.date, 0, 0⟩]).map (touchBucket o)

/-- Embedding of `aggregateMonthly(arr)` (tabs.jsx lines 190-195). -/
def aggregateMonthly (arr : List Record) : List MonthlyBucket :=
  arr.foldl aggStep []

/-- Derived month label of every record, in input order. -/
def monthLabels (arr : List Record) : List String :=
  arr.map (fun o => monthLabel o.date)

/-- First-occurrence subsequence of a list: each element once, ordered by
its first appearance. -/
def firstOccurrences : List String → List String
  | [] => []
  | a :: l => a :: (firstOccurrences l).filter (fun b => b != a)

/-- Number of records whose date maps to month label `m`. -/
def countFor (arr : List Record) (m : String) : Nat :=
  arr.countP (fun o => decide (monthLabel o.date = m))

/-- Rate of the last record, in input order, that maps to `m` and carries a
non-zero rate; `0` when there is none. -/
def lastNonzeroRate (arr : List Record) (m : String) : ℚ :=
  (((arr.filter fun o => decide (monthLabel o.date = m ∧ o.rate ≠ 0)).map
    Record.rate).getLast?).getD 0

/-- The bucket that `aggregateMonthly arr` builds for month label `m`. -/
def bucketFor (arr : List Record) (m : String) : MonthlyBucket :=
  ⟨m, countFor arr m, lastNonzeroRate arr m⟩

theorem mem_firstOccurrences (L : List String) (a : String) :
    a ∈ firstOccurrences L ↔ a ∈ L := by
  induction L with
  | nil => simp [firstOccurrences]
  | cons b L ih =>
    simp only [firstOccurrences, List.mem_cons, List.mem_filter, ih, bne_iff_ne]
    by_cases hab : a = b
    · simp [hab]
    · simp [hab]

theorem nodup_firstOccurrences (L : List String) : (firstOccurrences L).Nodup := by
  induction L with
  | nil => simp [firstOccurrences]
  | cons b L ih =>
    simp only [firstOccurrences]
    refine List.nodup_cons.mpr ⟨?_, ih.filter _⟩
    simp [List.mem_filter]

theorem firstOccurrences_snoc (L : List String) (a : String) :
    firstOccurrences (L ++ [a]) =
      if a ∈ L then firstOccurrences L else firstOccurrences L ++ [a] := by
  induction L with
  | nil => simp [firstOccurrences]
  | cons b L ih =>
    show b :: (firstOccurrences (L ++ [a])).filter (fun c => c != b) = _
    rw [ih]
    by_cases hab : a ∈ L
    · rw [if_pos hab, if_pos (List.mem_cons_of_mem b hab)]
      rfl
    · rw [if_neg hab]
      by_cases hba : a = b
      · subst hba
        rw [if_pos (List.mem_cons_self _ _)]
        rw [List.filter_append]
        simp [firstOccurrences]
      · rw [if_neg (by simp [hba, hab] : ¬a ∈ b :: L)]
        rw [List.filter_append]
        simp [firstOccurrences, hba]

theorem monthLabels_snoc (l : List Record) (x : Record) :
    monthLabels (l ++ [x]) = monthLabels l ++ [monthLabel x.date] := by
  simp [monthLabels]

theorem countFor_snoc (l : List Record) (x : Record) (m : String) :
    countFor (l ++ [x]) m = countFor l m + if monthLabel x.date = m then 1 else 0 := by
  simp [countFor, List.countP_append, List.countP_cons]

theorem lastNonzeroRate_snoc (l : List Record) (x : Record) (m : String) :
    lastNonzeroRate (l ++ [x]) m =
      if monthLabel x.date = m ∧ x.rate ≠ 0 then x.rate else lastNonzeroRate l m := by
  by_cases h : monthLabel x.date = m ∧ x.rate ≠ 0
  · rw [if_pos h]
    simp only [lastNonzeroRate, List.filter_append]
    rw [show List.filter (fun o => decide (monthLabel o.date = m ∧ o.rate ≠ 0)) [x] = [x] by
      simp [List.filter_cons, h.1, h.2]]
    simp
  · rw [if_neg h]
    simp only [lastNonzeroRate, List.filter_append]
    rw [show List.filter (fun o => decide (monthLabel o.date = m ∧ o.rate ≠ 0)) [x] = [] by
      simp [List.filter_cons]; tauto]
    simp

theorem countFor_of_not_mem (l : List Record) (m : String) (h : m ∉ monthLabels l) :
    countFor l m = 0 := by
  rw [countFor, List.countP_eq_zero]
  intro o ho
  simp only [decide_eq_true_eq]
  intro heq
  exact h (heq ▸ List.mem_map_of_mem (fun o => monthLabel o.date) ho)

theorem lastNonzeroRate_of_not_mem (l : List Record) (m : String)
    (h : m ∉ monthLabels l) : lastNonzeroRate l m = 0 := by
  rw [lastNonzeroRate, List.filter_eq_nil_iff.mpr]
  · simp
  · intro o ho
    simp only [decide_eq_true_eq]
    intro hc
    exact h (hc.1 ▸ List.mem_map_of_mem (fun o => monthLabel o.date) ho)

theorem touchBucket_bucketFor (l : List Record) (x : Record) (m : String) :
    touchBucket x (bucketFor l m) = bucketFor (l ++ [x]) m := by
  by_cases hm : monthLabel x.date = m
  · simp only [touchBucket, bucketFor, countFor_snoc, lastNonzeroRate_snoc]
    rw [if_pos hm.symm]
    by_cases hr : x.rate = 0
    · simp [hm, hr]
    · simp [hm, hr]
  · simp only [touchBucket, bucketFor, countFor_snoc, lastNonzeroRate_snoc]
    rw [if_neg (fun heq => hm heq.symm)]
    simp [hm]

theorem aggregateMonthly_snoc (l : List Record) (x : Record) :
    aggregateMonthly (l ++ [x]) = aggStep (aggregateMonthly l) x := by
  simp [aggregateMonthly, List.foldl_append]

theorem aggregateMonthly_eq (arr : List Record) :
    aggregateMonthly arr = (firstOccurrences (monthLabels arr)).map (bucketFor arr) := by
  induction arr using List.reverseRecOn with
  | nil => rfl
  | append_singleton l x ih =>
    rw [aggregateMonthly_snoc, ih, monthLabels_snoc, firstOccurrences_snoc]
    simp only [aggStep]
    by_cases hm : monthLabel x.date ∈ monthLabels l
    · rw [if_pos hm]
      have hany : (((firstOccurrences (monthLabels l)).map (bucketFor l)).any
          (fun b => b.month == monthLabel x.date)) = true := by
        rw [List.any_eq_true]
        refine ⟨bucketFor l (monthLabel x.date), List.mem_map_of_mem _ ?_, ?_⟩
        · exact (mem_firstOccurrences _ _).mpr hm
        · simp [bucketFor]
      rw [if_pos hany, List.map_map]
      exact List.map_congr_left fun m _ => touchBucket_bucketFor l x m
    · rw [if_neg hm]
      have hany : ¬(((firstOccurrences (monthLabels l)).map (bucketFor l)).any
          (fun b => b.month == monthLabel x.date)) = true := by
        rw [List.any_eq_true]
        rintro ⟨b, hb, hbm⟩
        rcases List.mem_map.mp hb with ⟨m, hmem, rfl⟩
        simp only [bucketFor, beq_iff_eq] at hbm
        exact hm (hbm ▸ (mem_firstOccurrences _ _).mp hmem)
      rw [if_neg hany]
      have hnew : (⟨monthLabel x.date, 0, 0⟩ : MonthlyBucket) =
          bucketFor l (monthLabel x.date) := by
        rw [bucketFor, countFor_of_not_mem l _ hm, lastNonzeroRate_of_not_mem l _ hm]
      rw [hnew, show (firstOccurrences (monthLabels l)).map (bucketFor l) ++
            [bucketFor l (monthLabel x.date)] =
          ((firstOccurrences (monthLabels l)) ++ [monthLabel x.date]).map (bucketFor l) by
        simp]
      rw [List.map_map]
      exact List.map_congr_left fun m _ => touchBucket_bucketFor l x m

theorem aggregateMonthly_months (arr : List Record) :
    (aggregateMonthly arr).map MonthlyBucket.month =
      firstOccurrences (monthLabels arr) := by
  rw [aggregateMonthly_eq, List.map_map]
  have : (MonthlyBucket.month ∘ bucketFor arr) = id := by
    funext m
    rfl
  rw [this, List.map_id]

/-!
Tab selection store.

Both variants of `Tabs` hold the single piece of state
`const [activeTab, setActiveTab] = useState(defaultValue)`.  `TabSet` embeds
that state together with the operations the specification names:
`TabSet.init` is the `useState(defaultValue)` initialisation,
`TabSet.select` is `setActiveTab` (invoked by `TabsTrigger`'s `onClick`),
`TabSet.isActive` is the `activeTab === value` comparison used by both
`TabsTrigger` (styling) and `TabsContent` (render decision), and
`TabSet.activeId` reads the current state.
-/

/-- State of the `Tabs` component: the active tab identifier. -/
structure TabSet where
  activeTab : String
deriving DecidableEq

/-- Embedding of `useState(defaultValue)` in `Tabs`. -/
def TabSet.init (defaultValue : String) : TabSet := ⟨defaultValue⟩

/-- Embedding of `setActiveTab(id)`, as called by `TabsTrigger`'s
`onClick={() => setActiveTab(value)}`: unconditional, no validation. -/
def TabSet.select (_s : TabSet) (id : String) : TabSet := ⟨id⟩

/-- Embedding of the `activeTab === value` test. -/
def TabSet.isActive (s : TabSet) (id : String) : Bool := s.activeTab == id

/-- Read-only access to the active identifier. -/
def TabSet.activeId (s : TabSet) : String := s.activeTab

/-- Embedding of `TabsContent` (both variants):
`if (value !== activeTab) return null; return <div>{children}</div>`.
The rendered output is modelled as `Option String`: `none` is `null`. -/
def TabsContent (value : String) (children : String) (s : TabSet) : Option String :=
  if value != s.activeTab then none else some children

/-- State of the shared-context variant of `Tabs`
(src/src/components/ui/tabs.jsx): `activeTab` lives in `useState` and is
distributed through `TabsContext.Provider`. -/
structure CtxTabs where
  activeTab : String
deriving DecidableEq

/-- Initialisation of the context variant: `useState(defaultValue)`. -/
def CtxTabs.init (defaultValue : String) : CtxTabs := ⟨defaultValue⟩

/-- The context variant's `setActiveTab`, reached by descendants through
`useContext(TabsContext)`. -/
def CtxTabs.setActiveTab (_s : CtxTabs) (v : String) : CtxTabs := ⟨v⟩

/-- Whether the context variant's `TabsContent` with this `value` renders:
`value !== activeTab` yields `null`. -/
def CtxTabs.panelRenders (s : CtxTabs) (value : String) : Bool :=
  !(value != s.activeTab)

/-- Run a sequence of trigger clicks against the context variant. -/
def CtxTabs.run (defaultValue : String) (ops : List String) : CtxTabs :=
  ops.foldl CtxTabs.setActiveTab (CtxTabs.init defaultValue)

/-- State of the prop-threading variant of `Tabs`
(src/src/src/components/ui/tabs.jsx): `activeTab` lives in `useState` and is
passed to each child via `React.cloneElement(child, { activeTab, setActiveTab })`. -/
structure PropTabs where
  activeTab : String
deriving DecidableEq

/-- Initialisation of the prop-threading variant: `useState(defaultValue)`. -/
def PropTabs.init (defaultValue : String) : PropTabs := ⟨defaultValue⟩

/-- The prop-threading variant's `setActiveTab`, received by children as an
injected prop. -/
def PropTabs.setActiveTab (_s : PropTabs) (v : String) : PropTabs := ⟨v⟩

/-- Whether the prop-threading variant's `TabsContent` with this `value`
renders: `value !== activeTab` yields `null`. -/
def PropTabs.panelRenders (s : PropTabs) (value : String) : Bool :=
  !(value != s.activeTab)

/-- Run a sequence of trigger clicks against the prop-threading variant. -/
def PropTabs.run (defaultValue : String) (ops : List String) : PropTabs :=
  ops.foldl PropTabs.setActiveTab (PropTabs.init defaultValue)

theorem foldl_add_eq_sum (l : List ℚ) (a : ℚ) : l.foldl (· + ·) a = a + l.sum := by
  induction l generalizing a with
  | nil => simp
  | cons x l ih =>
    simp only [List.foldl_cons, List.sum_cons, ih]
    ring

/-- C1: `percentage(part, total)` returns 0 when `total == 0`, and otherwise
returns `(part / total) * 100` rounded to one decimal place: the returned
string is the `toFixed1` rendering, whose value `signedTenths q / 10` is
within `1/20` of the exact quotient (nearest tenth).  In particular
`percentage(0,0) == 0`, `percentage(5,20) == 25.0` (the string `"25.0"`),
and `percentage(1,3) == 33.3` (the string `"33.3"`). -/
theorem C1_percentage_rounded :
    (∀ part total : ℚ, percentage part total =
      if total = 0 then JsVal.num 0 else JsVal.str (toFixed1 ((part / total) * 100)))
    ∧ (∀ q : ℚ, toFixed1 q = renderTenths (decide (q < 0)) (tenths q)
        ∧ |q - (signedTenths q : ℚ) / 10| ≤ 1 / 20)
    ∧ percentage 0 0 = JsVal.num 0
    ∧ percentage 5 20 = JsVal.str "25.0"
    ∧ percentage 1 3 = JsVal.str "33.3" := by
  refine ⟨fun part total => rfl, fun q => ⟨rfl, abs_sub_round_tenths q⟩, by decide, ?_, ?_⟩
  · simp only [percentage]
    rw [if_neg (by norm_num : ¬(20 : ℚ) = 0), show ((5 : ℚ) / 20 * 100) = 25 by norm_num,
      toFixed1_eval 25 250 (by norm_num) (tenths_eval 25 250 (by norm_num) (by norm_num))]
    decide
  · simp only [percentage]
    rw [if_neg (by norm_num : ¬(3 : ℚ) = 0), show ((1 : ℚ) / 3 * 100) = 100 / 3 by norm_num,
      toFixed1_eval (100 / 3) 333 (by norm_num)
        (tenths_eval (100 / 3) 333 (by norm_num) (by norm_num))]
    decide

/-- C6: `averageHours` returns 0 for the empty sequence, and otherwise the
arithmetic mean (`sum / length`) rounded to one decimal place, rendered by
`toFixed1` whose value is within `1/20` of the exact mean.  In particular
`averageHours([]) == 0` and `averageHours([2,4,6]) == 4.0` (the string
`"4.0"`). -/
theorem C6_averageHours_mean :
    (∀ arr : List ℚ, averageHours arr =
      if arr.length = 0 then JsVal.num 0
      else JsVal.str (toFixed1 (arr.sum / (arr.length : ℚ))))
    ∧ (∀ q : ℚ, |q - (signedTenths q : ℚ) / 10| ≤ 1 / 20)
    ∧ averageHours [] = JsVal.num 0
    ∧ averageHours [2, 4, 6] = JsVal.str "4.0" := by
  refine ⟨?_, abs_sub_round_tenths, rfl, ?_⟩
  · intro arr
    simp only [averageHours, foldl_add_eq_sum, zero_add]
  · simp only [averageHours]
    norm_num
    rw [toFixed1_eval 4 40 (by norm_num) (tenths_eval 4 40 (by norm_num) (by norm_num))]
    decide

/-- C10: for `total != 0`, `percentage` returns the `toFixed(1)` string, not
a number, while for `total == 0` it returns the number 0; `averageHours`
likewise returns a string for non-empty input and the number 0 for the empty
input — the result type differs between the two branches. -/
theorem C10_result_type_differs :
    (∀ part total : ℚ, total ≠ 0 → ∃ s : String, percentage part total = JsVal.str s)
    ∧ (∀ part : ℚ, percentage part 0 = JsVal.num 0)
    ∧ (∀ arr : List ℚ, arr ≠ [] → ∃ s : String, averageHours arr = JsVal.str s)
    ∧ averageHours [] = JsVal.num 0 := by
  refine ⟨?_, ?_, ?_, rfl⟩
  · intro part total h
    exact ⟨toFixed1 ((part / total) * 100), if_neg h⟩
  · intro part
    exact if_pos rfl
  · intro arr h
    refine ⟨toFixed1 (arr.foldl (· + ·) 0 / (arr.length : ℚ)), if_neg ?_⟩
    simpa using h

/-- Closed witness for C10 at `percentage(5,20)`, `percentage(7,0)` and
`averageHours([2])`. -/
theorem C10_result_type_differs_witness :
    (∃ s : String, percentage 5 20 = JsVal.str s)
    ∧ percentage 7 0 = JsVal.num 0
    ∧ (∃ s : String, averageHours [2] = JsVal.str s) :=
  ⟨C10_result_type_differs.1 5 20 (by norm_num),
   C10_result_type_differs.2.1 7,
   C10_result_type_differs.2.2.1 [2] (by simp)⟩

/-- C2: in every bucket produced by `aggregateMonthly`, `rate` equals the
rate of the last record, in input order, mapped to that bucket that carries
a non-zero rate (last-write-wins, not a sum or average); two same-month
records with rates 5 then 8 yield a single bucket with rate 8. -/
theorem C2_rate_last_write_wins :
    (∀ arr : List Record, ∀ b ∈ aggregateMonthly arr,
      b.rate = lastNonzeroRate arr b.month)
    ∧ aggregateMonthly [⟨"2025-03-01", 5⟩, ⟨"2025-03-15", 8⟩] =
        [⟨"Mar", 2, 8⟩] := by
  constructor
  · intro arr b hb
    rw [aggregateMonthly_eq] at hb
    rcases List.mem_map.mp hb with ⟨m, _, rfl⟩
    rfl
  · decide

/-- Closed witness for C2: the bucket `{month:"Mar",count:2,rate:8}` of the
two-record input has the rate of the last non-zero-rate record. -/
theorem C2_rate_last_write_wins_witness :
    (MonthlyBucket.mk "Mar" 2 8).rate =
      lastNonzeroRate [⟨"2025-03-01", 5⟩, ⟨"2025-03-15", 8⟩]
        (MonthlyBucket.mk "Mar" 2 8).month :=
  C2_rate_last_write_wins.1 [⟨"2025-03-01", 5⟩, ⟨"2025-03-15", 8⟩]
    ⟨"Mar", 2, 8⟩ (by decide)

/-- C3: `aggregateMonthly` produces exactly one bucket per distinct derived
month label (the bucket months are duplicate-free and are exactly the labels
occurring in the input), and each bucket's `count` is the number of input
records whose date maps to that label. -/
theorem C3_one_bucket_per_label :
    ∀ arr : List Record,
      ((aggregateMonthly arr).map MonthlyBucket.month).Nodup
      ∧ (∀ m : String,
          m ∈ (aggregateMonthly arr).map MonthlyBucket.month ↔ m ∈ monthLabels arr)
      ∧ ∀ b ∈ aggregateMonthly arr, b.count = countFor arr b.month := by
  intro arr
  refine ⟨?_, ?_, ?_⟩
  · rw [aggregateMonthly_months]
    exact nodup_firstOccurrences _
  · intro m
    rw [aggregateMonthly_months]
    exact mem_firstOccurrences _ m
  · intro b hb
    rw [aggregateMonthly_eq] at hb
    rcases List.mem_map.mp hb with ⟨m, _, rfl⟩
    rfl

/-- Closed witness for C3: the `"Mar"` bucket of a three-record input counts
the two March records. -/
theorem C3_one_bucket_per_label_witness :
    (MonthlyBucket.mk "Mar" 2 0).count =
      countFor [⟨"2025-03-01", 0⟩, ⟨"2025-01-02", 0⟩, ⟨"2025-03-03", 0⟩]
        (MonthlyBucket.mk "Mar" 2 0).month :=
  (C3_one_bucket_per_label [⟨"2025-03-01", 0⟩, ⟨"2025-01-02", 0⟩, ⟨"2025-03-03", 0⟩]).2.2
    ⟨"Mar", 2, 0⟩ (by decide)

/-- C4: the bucket order of `aggregateMonthly` is the first-occurrence order
of the derived month labels in the input, not calendar order; records dated
Mar, Jan, Mar yield bucket order `["Mar", "Jan"]`. -/
theorem C4_first_occurrence_order :
    (∀ arr : List Record,
      (aggregateMonthly arr).map MonthlyBucket.month = firstOccurrences (monthLabels arr))
    ∧ (aggregateMonthly [⟨"2025-03-01", 0⟩, ⟨"2025-01-02", 0⟩, ⟨"2025-03-03", 0⟩]).map
        MonthlyBucket.month = ["Mar", "Jan"] :=
  ⟨aggregateMonthly_months, by decide⟩

/-- C7: a record with an unparsable date does not make `aggregateMonthly`
fail (the embedding is a total function); the record is bucketed under the
single deterministic fallback label `"Invalid Date"`. -/
theorem C7_invalid_date_fallback :
    ∀ (arr : List Record) (o : Record), o ∈ arr → parseYMD o.date = none →
      monthLabel o.date = "Invalid Date"
      ∧ "Invalid Date" ∈ (aggregateMonthly arr).map MonthlyBucket.month := by
  intro arr o ho hp
  have hlab : monthLabel o.date = "Invalid Date" := by
    unfold monthLabel
    rw [hp]
  refine ⟨hlab, ?_⟩
  rw [aggregateMonthly_months, mem_firstOccurrences]
  exact hlab ▸ List.mem_map_of_mem (fun o => monthLabel o.date) ho

/-- Closed witness for C7 at the unparsable date string `"not-a-date"`. -/
theorem C7_invalid_date_fallback_witness :
    monthLabel "not-a-date" = "Invalid Date"
    ∧ "Invalid Date" ∈
        (aggregateMonthly [⟨"not-a-date", 0⟩]).map MonthlyBucket.month :=
  C7_invalid_date_fallback [⟨"not-a-date", 0⟩] ⟨"not-a-date", 0⟩
    (by decide) (by decide)

/-- C5: after `select(x)`, `isActive(x)` is true and `isActive(y)` is false
for every `y != x`; `init(d)` makes exactly `d` active; re-selecting the
active identifier is idempotent (the state equals that of a single select). -/
theorem C5_single_active_tab :
    (∀ (s : TabSet) (x : String), (s.select x).isActive x = true)
    ∧ (∀ (s : TabSet) (x y : String), y ≠ x → (s.select x).isActive y = false)
    ∧ (∀ d : String, (TabSet.init d).isActive d = true)
    ∧ (∀ d y : String, y ≠ d → (TabSet.init d).isActive y = false)
    ∧ (∀ (s : TabSet) (x : String), (s.select x).select x = s.select x) := by
  refine ⟨?_, ?_, ?_, ?_, ?_⟩
  · intro s x
    simp [TabSet.select, TabSet.isActive]
  · intro s x y h
    simp [TabSet.select, TabSet.isActive]
    exact fun heq => h heq.symm
  · intro d
    simp [TabSet.init, TabSet.isActive]
  · intro d y h
    simp [TabSet.init, TabSet.isActive]
    exact fun heq => h heq.symm
  · intro s x
    rfl

/-- Closed witness for C5 on the dashboard's tab identifiers `"orders"` and
`"inventory"`. -/
theorem C5_single_active_tab_witness :
    (TabSet.init "orders").isActive "orders" = true
    ∧ (TabSet.init "orders").isActive "inventory" = false
    ∧ ((TabSet.init "orders").select "inventory").isActive "inventory" = true
    ∧ ((TabSet.init "orders").select "inventory").isActive "orders" = false :=
  ⟨C5_single_active_tab.2.2.1 "orders",
   C5_single_active_tab.2.2.2.1 "orders" "inventory" (by decide),
   C5_single_active_tab.1 (TabSet.init "orders") "inventory",
   C5_single_active_tab.2.1 (TabSet.init "orders") "inventory" "orders" (by decide)⟩

/-- C8: `select(id)` is total and unvalidated — it sets the active
identifier to `id` for every string, known tab or not — and afterwards every
content panel whose `value` differs from `id` reports not-active and renders
`null`. -/
theorem C8_select_total_no_validation :
    (∀ (s : TabSet) (id : String), (s.select id).activeId = id)
    ∧ (∀ (s : TabSet) (id v c : String), v ≠ id →
        TabsContent v c (s.select id) = none ∧ (s.select id).isActive v = false) := by
  constructor
  · intro s id
    rfl
  · intro s id v c h
    constructor
    · rw [TabsContent, if_pos]
      simpa using h
    · simp [TabSet.select, TabSet.isActive]
      exact fun heq => h heq.symm

/-- Closed witness for C8: selecting the unknown identifier `"nope"` makes
the `"orders"` panel render nothing. -/
theorem C8_select_total_no_validation_witness :
    ((TabSet.init "orders").select "nope").activeId = "nope"
    ∧ TabsContent "orders" "children" ((TabSet.init "orders").select "nope") = none :=
  ⟨C8_select_total_no_validation.1 (TabSet.init "orders") "nope",
   (C8_select_total_no_validation.2 (TabSet.init "orders") "nope" "orders" "children"
     (by decide)).1⟩

/-- C9: the shared-context variant and the prop-threading variant of the tab
store are observably equivalent: for every default identifier and every
sequence of selects they agree on the active identifier and on whether each
content panel renders. -/
theorem C9_variants_equivalent :
    ∀ (d : String) (ops : List String),
      (CtxTabs.run d ops).activeTab = (PropTabs.run d ops).activeTab
      ∧ ∀ v : String,
          (CtxTabs.run d ops).panelRenders v = (PropTabs.run d ops).panelRenders v := by
  have key : ∀ (ops : List String) (a : String),
      (List.foldl CtxTabs.setActiveTab ⟨a⟩ ops).activeTab =
        (List.foldl PropTabs.setActiveTab ⟨a⟩ ops).activeTab := by
    intro ops
    induction ops with
    | nil => intro a; rfl
    | cons x ops ih => intro a; exact ih x
  intro d ops
  have h2 : (CtxTabs.run d ops).activeTab = (PropTabs.run d ops).activeTab := key ops d
  exact ⟨h2, fun v => by simp [CtxTabs.panelRenders, PropTabs.panelRenders, h2]⟩
